import Mathlib

/-!
Shallow embedding of the call-signaling core of `src/app.js` (class `ChatApp`).

The source is a single-page chat client that negotiates WebRTC calls over a
websocket signaling channel.  We embed the fields of `ChatApp` that the call
state machine reads or writes, and the methods `handleMessage`,
`initiateCall`, `showIncomingCall`, `answerCall`, `handleCallAnswer`,
`startLocalStream`, `createPeerConnection` and `endCall` as pure state
transformers.  Every browser/platform side effect (websocket send, calls into
the RTCPeerConnection negotiation engine, stopping media tracks, UI alerts)
is recorded in an explicit effect list; a thrown JS exception is recorded in
an `Option JsError` result field.  Session descriptors and ICE candidates are
opaque to the core, so they are carried as plain naturals; each
`new RTCPeerConnection` receives a fresh numeric engine id so that effects
name the engine they act on.  Per the concurrency model (single logical
thread, handlers serialized, messages queued by the platform while a handler
is suspended), each handler runs to completion as one atomic step.
-/

set_option autoImplicit false

namespace ChatApp

/-- Call kind as carried in `call_offer.call_type` ("audio" or "video"). -/
inductive CallKind
  | audio
  | video
deriving DecidableEq, Repr

/-- An inbound/outbound `call_offer` payload: `{from_user, to_user, call_type,
sdp}`.  `Option String` models JS fields that may be `null`/`undefined`;
the `sdp` descriptor is opaque. -/
structure OfferData where
  from_user : Option String
  to_user : Option String
  call_type : CallKind
  sdp : Option Nat
deriving DecidableEq, Repr

/-- Signaling-channel messages, by their `type` discriminant
(`message`, `join`, `leave`, `call_offer`, `call_answer`, `ice_candidate`). -/
inductive WireMsg
  | chat (user content : String)
  | join (online : List String)
  | leave (online : List String)
  | callOffer (data : OfferData)
  | callAnswer (from_user to_user : Option String) (accepted : Bool) (sdp : Option Nat)
  | iceCandidate (from_user to_user : Option String) (candidate : Nat)
deriving DecidableEq, Repr

/-- Observable side effects of one handler run, in program order. -/
inductive Effect
  | wsSend (msg : WireMsg)
  | engineCreate (engine : Nat)
  | addTrack (engine : Nat) (stream : Nat)
  | engineSetLocal (engine : Nat) (sdp : Nat)
  | engineSetRemote (engine : Nat) (sdp : Option Nat)
  | engineAddCandidate (engine : Nat) (candidate : Nat)
  | engineClose (engine : Nat)
  | stopLocalTracks (stream : Nat)
  | stopRemoteTracks (stream : Nat)
  | uiAlert (text : String)
  | uiShowIncomingCall (from_user : Option String) (kind : CallKind)
deriving DecidableEq, Repr

/-- JS exceptions the embedded code can raise: `getUserMedia` rejection
(permission denied / no device) and a `TypeError` from dereferencing a null
`peerConnection`. -/
inductive JsError
  | mediaAcquisition
  | typeError
deriving DecidableEq, Repr

/-- The `ChatApp` fields touched by the call state machine.  `peerConnection`
holds the current negotiation-engine id (none = JS null); `nextEngineId`
numbers successive `new RTCPeerConnection` instances.  `onlineUsers` is
`none` until the first presence snapshot (the field is first assigned in
`updateUsersList`).  `incomingCallHidden` / `callOverlayHidden` track the
`hidden` class of the incoming-call modal and the call overlay. -/
structure State where
  currentUsername : String
  onlineUsers : Option (List String)
  peerConnection : Option Nat
  nextEngineId : Nat
  localStream : Option Nat
  remoteStream : Option Nat
  currentPeer : Option String
  isCaller : Bool
  pendingRemoteCandidates : List Nat
  remoteDescriptionSet : Bool
  pendingOffer : Option OfferData
  incomingCallHidden : Bool
  callOverlayHidden : Bool
deriving DecidableEq, Repr

/-- Constructor state (`new ChatApp()`): no session, empty candidate queue,
`remoteDescriptionSet = false`, no pending offer, modal and overlay hidden. -/
def initState (username : String) : State :=
  { currentUsername := username
    onlineUsers := none
    peerConnection := none
    nextEngineId := 0
    localStream := none
    remoteStream := none
    currentPeer := none
    isCaller := false
    pendingRemoteCandidates := []
    remoteDescriptionSet := false
    pendingOffer := none
    incomingCallHidden := true
    callOverlayHidden := true }

/-- Result of one handler run: final state, effects in order, and the
exception that escaped the handler, if any. -/
structure Res where
  state : State
  effects : List Effect
  err : Option JsError
deriving DecidableEq, Repr

/-- `endCall()`: stop local/remote tracks if present, close the engine if
present, null out the media fields, reset `isCaller`/`currentPeer`, hide the
overlay.  It does not touch `pendingOffer`, `pendingRemoteCandidates` or
`remoteDescriptionSet`. -/
def endCall (s : State) : State × List Effect :=
  ({ s with callOverlayHidden := true
            peerConnection := none
            localStream := none
            remoteStream := none
            isCaller := false
            currentPeer := none },
   (match s.localStream with
    | some m => [Effect.stopLocalTracks m]
    | none => []) ++
   (match s.remoteStream with
    | some m => [Effect.stopRemoteTracks m]
    | none => []) ++
   (match s.peerConnection with
    | some e => [Effect.engineClose e]
    | none => []))

/-- `startLocalStream(type)`: awaits `getUserMedia` (`media = none` models the
rejection, which escapes before any field is written), then stores the
stream, runs `createPeerConnection()` (fresh engine id), adds the tracks,
and — caller only — creates/sets a local offer descriptor and sends
`call_offer` to `currentPeer`.  The offer descriptor is the opaque value 0. -/
def startLocalStream (s : State) (kind : CallKind) (media : Option Nat) : Res :=
  match media with
  | none => ⟨s, [], some JsError.mediaAcquisition⟩
  | some m =>
    let e := s.nextEngineId
    let s1 : State :=
      { s with localStream := some m, peerConnection := some e, nextEngineId := e + 1 }
    let effs := [Effect.engineCreate e, Effect.addTrack e m]
    if s1.isCaller then
      ⟨s1,
       effs ++ [Effect.engineSetLocal e 0,
                Effect.wsSend (WireMsg.callOffer
                  ⟨some s1.currentUsername, s1.currentPeer, kind, some 0⟩)],
       none⟩
    else
      ⟨s1, effs, none⟩

/-- `initiateCall(type)`: `currentPeer = onlineUsers.find(u => u !== me)`
(assigned before the null check; reading `.find` on an absent roster throws);
if no peer, alert and return; else set `isCaller`, show the overlay and run
`startLocalStream` (not awaited — its rejection escapes unhandled, after the
field writes already made here). -/
def initiateCall (s : State) (kind : CallKind) (media : Option Nat) : Res :=
  match s.onlineUsers with
  | none => ⟨s, [], some JsError.typeError⟩
  | some users =>
    let peer := users.find? (fun u => u ≠ s.currentUsername)
    let s1 : State := { s with currentPeer := peer }
    match peer with
    | none => ⟨s1, [Effect.uiAlert "No one to call."], none⟩
    | some _ =>
      let s2 : State := { s1 with isCaller := true, callOverlayHidden := false }
      startLocalStream s2 kind media

/-- `showIncomingCall(offer)`: store the offer as `pendingOffer` and reveal
the incoming-call modal. -/
def showIncomingCall (s : State) (data : OfferData) : State × List Effect :=
  ({ s with pendingOffer := some data, incomingCallHidden := false },
   [Effect.uiShowIncomingCall data.from_user data.call_type])

/-- The queue drain at `remoteDescriptionSet = true`: apply every pending
candidate to engine `e` in order, then clear the queue. -/
def flushPending (s : State) (e : Nat) : State × List Effect :=
  ({ s with pendingRemoteCandidates := [] },
   s.pendingRemoteCandidates.map (fun c => Effect.engineAddCandidate e c))

/-- `handleCallAnswer(answer)`: on `accepted: false`, run `endCall`.
Otherwise dereference `peerConnection` (TypeError when null), apply the
remote descriptor, set `remoteDescriptionSet`, and drain the candidate
queue.  No addressing or sender check is performed. -/
def handleCallAnswer (s : State) (accepted : Bool) (sdp : Option Nat) : Res :=
  if accepted then
    match s.peerConnection with
    | none => ⟨s, [], some JsError.typeError⟩
    | some e =>
      let s1 : State := { s with remoteDescriptionSet := true }
      let (s2, flushEffs) := flushPending s1 e
      ⟨s2, Effect.engineSetRemote e sdp :: flushEffs, none⟩
  else
    let (s1, effs) := endCall s
    ⟨s1, effs, none⟩

/-- `answerCall(accepted)`: hide the modal, take and clear `pendingOffer`
(return if none).  On reject, send `call_answer {accepted:false}`.  On
accept: set peer/role, show the overlay, `startLocalStream` (awaited — a
media rejection escapes here, after those writes), then apply the offer
descriptor, set `remoteDescriptionSet`, drain the queue, create/set the
local answer descriptor (opaque value 1) and send
`call_answer {accepted:true}`. -/
def answerCall (s : State) (accepted : Bool) (media : Option Nat) : Res :=
  let s0 : State := { s with incomingCallHidden := true }
  match s0.pendingOffer with
  | none => ⟨{ s0 with pendingOffer := none }, [], none⟩
  | some offer =>
    let s1 : State := { s0 with pendingOffer := none }
    if accepted then
      let s2 : State :=
        { s1 with currentPeer := offer.from_user, isCaller := false,
                  callOverlayHidden := false }
      let r := startLocalStream s2 offer.call_type media
      match r.err with
      | some err => ⟨r.state, r.effects, some err⟩
      | none =>
        match r.state.peerConnection with
        | none => ⟨r.state, r.effects, some JsError.typeError⟩
        | some e =>
          let s3 : State := { r.state with remoteDescriptionSet := true }
          let (s4, flushEffs) := flushPending s3 e
          ⟨s4,
           r.effects ++ (Effect.engineSetRemote e offer.sdp :: flushEffs) ++
             [Effect.engineSetLocal e 1,
              Effect.wsSend (WireMsg.callAnswer (some s4.currentUsername)
                offer.from_user true (some 1))],
           none⟩
    else
      ⟨s1,
       [Effect.wsSend (WireMsg.callAnswer (some s1.currentUsername)
          offer.from_user false none)],
       none⟩

/-- `handleMessage(data)`: the inbound router.  `message` renders chat (no
core state change); `join`/`leave` replace the roster; `call_offer` goes to
`showIncomingCall` when addressed to us (no busy check); `call_answer` goes
unconditionally to `handleCallAnswer`; `ice_candidate` is applied or
buffered when addressed to us and a session exists, else dropped. -/
def handleMessage (s : State) (msg : WireMsg) : Res :=
  match msg with
  | WireMsg.chat _ _ => ⟨s, [], none⟩
  | WireMsg.join online => ⟨{ s with onlineUsers := some online }, [], none⟩
  | WireMsg.leave online => ⟨{ s with onlineUsers := some online }, [], none⟩
  | WireMsg.callOffer data =>
    if data.to_user = some s.currentUsername then
      let (s1, effs) := showIncomingCall s data
      ⟨s1, effs, none⟩
    else
      ⟨s, [], none⟩
  | WireMsg.callAnswer _ _ accepted sdp => handleCallAnswer s accepted sdp
  | WireMsg.iceCandidate _ to_user c =>
    if to_user = some s.currentUsername then
      match s.peerConnection with
      | some e =>
        if s.remoteDescriptionSet then
          ⟨s, [Effect.engineAddCandidate e c], none⟩
        else
          ⟨{ s with pendingRemoteCandidates := s.pendingRemoteCandidates ++ [c] }, [], none⟩
      | none => ⟨s, [], none⟩
    else
      ⟨s, [], none⟩

/-- External stimuli of the call core: an inbound channel message, the two
call buttons, the accept/reject buttons, and the end-call button.  Media
acquisition outcome is an input (`none` = `getUserMedia` rejects). -/
inductive Op
  | recv (msg : WireMsg)
  | initiate (kind : CallKind) (media : Option Nat)
  | answer (accepted : Bool) (media : Option Nat)
  | hangup
deriving DecidableEq, Repr

/-- One serialized handler run for one stimulus. -/
def step (s : State) (op : Op) : Res :=
  match op with
  | Op.recv msg => handleMessage s msg
  | Op.initiate kind media => initiateCall s kind media
  | Op.answer accepted media => answerCall s accepted media
  | Op.hangup =>
    let (s1, effs) := endCall s
    ⟨s1, effs, none⟩

/-- Final state after a sequence of stimuli. -/
def runState (s : State) : List Op → State
  | [] => s
  | op :: ops => runState (step s op).state ops

/-- Final state plus all effects, in order, over a sequence of stimuli. -/
def run (s : State) : List Op → State × List Effect
  | [] => (s, [])
  | op :: ops =>
    let r := step s op
    let (s1, effs) := run r.state ops
    (s1, r.effects ++ effs)

/-- The Idle-equivalent session state: no engine, no streams, Callee-default
role flag, no peer, overlay hidden. -/
def sessionIdle (s : State) : Prop :=
  s.peerConnection = none ∧ s.localStream = none ∧ s.remoteStream = none ∧
  s.isCaller = false ∧ s.currentPeer = none ∧ s.callOverlayHidden = true

instance (s : State) : Decidable (sessionIdle s) := by
  unfold sessionIdle; infer_instance

/-- True when the effect list contains a `call_offer` send. -/
def emitsOffer (effs : List Effect) : Bool :=
  effs.any fun eff =>
    match eff with
    | Effect.wsSend (WireMsg.callOffer _) => true
    | _ => false

/-- True when the effect list contains a `call_answer` send with the given
`accepted` flag. -/
def emitsAnswer (effs : List Effect) (accepted : Bool) : Bool :=
  effs.any fun eff =>
    match eff with
    | Effect.wsSend (WireMsg.callAnswer _ _ a _) => a == accepted
    | _ => false

/-- Stimuli delivering a list of ICE candidates from `f` to `me`. -/
def enqueueOps (f : Option String) (me : String) (cs : List Nat) : List Op :=
  cs.map (fun c => Op.recv (WireMsg.iceCandidate f (some me) c))

/-- Fresh client for user "alice". -/
def aliceInit : State := initState "alice"

/-- Alice after the first presence snapshot: roster `["alice", "bob"]`. -/
def sJoined : State := runState aliceInit [Op.recv (WireMsg.join ["alice", "bob"])]

/-- Alice mid-call as caller: she pressed the audio-call button with media
granted (stream id 7); engine 0 is live, `call_offer` has been sent to bob,
no answer yet (`remoteDescriptionSet = false`). -/
def sActive : State := runState sJoined [Op.initiate CallKind.audio (some 7)]

/-- The offer bob sends alice while she is already calling him (glare). -/
def glareOffer : OfferData := ⟨some "bob", some "alice", CallKind.audio, some 5⟩

/-- Alice mid-call as caller after bob's simultaneous offer arrived: her
session is still active and `glareOffer` sits in `pendingOffer`. -/
def sGlare : State := runState sActive [Op.recv (WireMsg.callOffer glareOffer)]

/-- `sGlare` after two of bob's ICE candidates (41 then 42) were buffered
while the remote description was still unset. -/
def sPend : State :=
  runState sGlare
    [Op.recv (WireMsg.iceCandidate (some "bob") (some "alice") 41),
     Op.recv (WireMsg.iceCandidate (some "bob") (some "alice") 42)]

/-- Alice connected as caller: bob's accepting `call_answer` has been
processed, so `remoteDescriptionSet = true` on engine 0. -/
def sConn : State :=
  runState sActive [Op.recv (WireMsg.callAnswer (some "bob") (some "alice") true (some 9))]

end ChatApp

namespace ChatApp

/-- C3 counterexample: from the reachable state `sPend` (an active glare
session with `glareOffer` pending and candidates `[41, 42]` buffered),
`endCall` leaves both the PendingOffer and the pending remote-candidate
queue in place, contradicting the claim that teardown clears them. -/
theorem c3_counterexample :
    sPend.pendingOffer = some glareOffer ∧
    sPend.pendingRemoteCandidates = [41, 42] ∧
    (step sPend Op.hangup).state.pendingOffer = some glareOffer ∧
    (step sPend Op.hangup).state.pendingRemoteCandidates = [41, 42] := by
  decide

/-- C3 amended: `endCall`, from any state, releases the local/remote media
tracks and closes the negotiation engine when present, and resets the
media, role and peer fields to their Idle values — but it leaves
`pendingOffer`, `pendingRemoteCandidates` and `remoteDescriptionSet`
untouched. -/
theorem c3_amended (s : State) :
    (endCall s).1.peerConnection = none ∧
    (endCall s).1.localStream = none ∧
    (endCall s).1.remoteStream = none ∧
    (endCall s).1.isCaller = false ∧
    (endCall s).1.currentPeer = none ∧
    (endCall s).1.callOverlayHidden = true ∧
    (endCall s).1.pendingOffer = s.pendingOffer ∧
    (endCall s).1.pendingRemoteCandidates = s.pendingRemoteCandidates ∧
    (endCall s).1.remoteDescriptionSet = s.remoteDescriptionSet ∧
    (endCall s).2 =
      (match s.localStream with
       | some m => [Effect.stopLocalTracks m]
       | none => []) ++
      (match s.remoteStream with
       | some m => [Effect.stopRemoteTracks m]
       | none => []) ++
      (match s.peerConnection with
       | some e => [Effect.engineClose e]
       | none => []) := by
  simp [endCall]

/-- C8: `endCall` is idempotent — a second consecutive call yields the same
state and performs no release effects (so the media handle and engine are
released at most once); after one `endCall` the session fields are
Idle-equivalent; and on a `sessionIdle` state `endCall` is a no-op. -/
theorem c8_endCall_idempotent (s : State) :
    (endCall (endCall s).1).1 = (endCall s).1 ∧
    (endCall (endCall s).1).2 = [] ∧
    sessionIdle (endCall s).1 ∧
    (sessionIdle s → endCall s = (s, [])) := by
  obtain ⟨u, ou, pc, ne, ls, rs, cp, ic, prc, rds, po, ich, coh⟩ := s
  refine ⟨rfl, rfl, by simp [endCall, sessionIdle], ?_⟩
  rintro ⟨h1, h2, h3, h4, h5, h6⟩
  simp_all [endCall, sessionIdle]

/-- C8 witness: on the concrete post-teardown state `(endCall sPend).1`,
which is `sessionIdle`, `endCall` is a no-op. -/
theorem c8_witness : endCall (endCall sPend).1 = ((endCall sPend).1, []) :=
  (c8_endCall_idempotent (endCall sPend).1).2.2.2 (by decide)

end ChatApp

namespace ChatApp

/-- While no session exists, a whole list of inbound ICE candidates is
dropped without any state change or effect. -/
theorem run_ice_no_session (f tu : Option String) (cs : List Nat) (s : State)
    (h : s.peerConnection = none) :
    run s (cs.map (fun cd => Op.recv (WireMsg.iceCandidate f tu cd))) = (s, []) := by
  induction cs with
  | nil => simp [run]
  | cons c cs ih =>
    have hstep : step s (Op.recv (WireMsg.iceCandidate f tu c)) = ⟨s, [], none⟩ := by
      simp only [step, handleMessage, h]
      split <;> rfl
    simp [run, hstep, ih]

/-- C9: an inbound `ice_candidate` reaches the session (applied directly or
buffered) exactly when it is addressed to the local participant and a
session is active; otherwise it is dropped silently, with no state change
and no error — in particular, any number of candidates arriving before any
session exists are all dropped. -/
theorem c9_ice_routing (s : State) (f tu : Option String) (c : Nat) (cs : List Nat) :
    (tu ≠ some s.currentUsername →
      handleMessage s (WireMsg.iceCandidate f tu c) = ⟨s, [], none⟩) ∧
    (s.peerConnection = none →
      handleMessage s (WireMsg.iceCandidate f tu c) = ⟨s, [], none⟩) ∧
    (∀ e, s.peerConnection = some e →
      handleMessage s (WireMsg.iceCandidate f (some s.currentUsername) c) =
        (if s.remoteDescriptionSet then ⟨s, [Effect.engineAddCandidate e c], none⟩
         else ⟨{ s with pendingRemoteCandidates := s.pendingRemoteCandidates ++ [c] },
               [], none⟩)) ∧
    (s.peerConnection = none →
      run s (cs.map (fun cd => Op.recv (WireMsg.iceCandidate f tu cd))) = (s, [])) := by
  refine ⟨fun h => ?_, fun h => ?_, fun e he => ?_, fun h => run_ice_no_session f tu cs s h⟩
  · simp [handleMessage, h]
  · simp only [handleMessage, h]
    split <;> rfl
  · simp [handleMessage, he]

/-- C9 witness: a candidate not addressed to alice, and a candidate arriving
before any session exists, are both dropped on the fresh client state. -/
theorem c9_witness :
    handleMessage aliceInit (WireMsg.iceCandidate (some "bob") (some "carol") 41) =
      ⟨aliceInit, [], none⟩ ∧
    handleMessage aliceInit (WireMsg.iceCandidate (some "bob") (some "alice") 41) =
      ⟨aliceInit, [], none⟩ :=
  ⟨(c9_ice_routing aliceInit (some "bob") (some "carol") 41 []).1 (by decide),
   (c9_ice_routing aliceInit (some "bob") (some "alice") 41 []).2.1 rfl⟩

/-- Once set, `remoteDescriptionSet` survives any single handler run. -/
theorem step_rds_mono (s : State) (op : Op) (h : s.remoteDescriptionSet = true) :
    (step s op).state.remoteDescriptionSet = true := by
  cases op with
  | recv msg =>
    cases msg with
    | chat u c => exact h
    | join o => exact h
    | leave o => exact h
    | callOffer d =>
      by_cases hd : d.to_user = some s.currentUsername <;>
        simp [step, handleMessage, showIncomingCall, hd, h]
    | callAnswer f t a sdp =>
      rcases hpc : s.peerConnection with _ | e <;> cases a <;>
        simp [step, handleMessage, handleCallAnswer, flushPending, endCall, hpc, h]
    | iceCandidate f t c =>
      by_cases ht : t = some s.currentUsername <;>
        rcases hpc : s.peerConnection with _ | e <;>
        simp_all [step, handleMessage, h]
  | initiate kind media =>
    rcases ho : s.onlineUsers with _ | users
    · simpa [step, initiateCall, ho] using h
    · rcases hf : users.find? (fun u => u ≠ s.currentUsername) with _ | p <;>
        rcases media with _ | m <;>
        simp only [step, initiateCall, startLocalStream, ho, hf] <;>
        simp [h]
  | answer a media =>
    rcases hpo : s.pendingOffer with _ | offer <;> cases a <;>
      rcases media with _ | m <;>
      simp [step, answerCall, startLocalStream, flushPending, hpo, h]
  | hangup => exact h

/-- Once set, `remoteDescriptionSet` survives any sequence of handler runs. -/
theorem runState_rds_mono (s : State) (ops : List Op) (h : s.remoteDescriptionSet = true) :
    (runState s ops).remoteDescriptionSet = true := by
  induction ops generalizing s with
  | nil => exact h
  | cons op ops ih => exact ih _ (step_rds_mono s op h)

/-- C10: `remoteDescriptionSet` starts false in the constructor state, is
preserved once true by every handler (including `endCall`) and by every
handler sequence, and while it is true an addressed inbound `ice_candidate`
with an active engine is applied directly to that engine, leaving the
pending queue untouched. -/
theorem c10_rds_monotone (u : String) (s : State) (op : Op) (ops : List Op)
    (f : Option String) (c e : Nat) :
    (initState u).remoteDescriptionSet = false ∧
    (s.remoteDescriptionSet = true → (step s op).state.remoteDescriptionSet = true) ∧
    (s.remoteDescriptionSet = true → (runState s ops).remoteDescriptionSet = true) ∧
    (s.remoteDescriptionSet = true → s.peerConnection = some e →
      handleMessage s (WireMsg.iceCandidate f (some s.currentUsername) c) =
        ⟨s, [Effect.engineAddCandidate e c], none⟩) := by
  refine ⟨rfl, step_rds_mono s op, runState_rds_mono s ops, fun hr he => ?_⟩
  simp [handleMessage, he, hr]

/-- C10 witness: on the connected state `sConn` (flag already true), the flag
survives a hangup followed by a fresh call, and an inbound addressed
candidate is applied directly to the live engine with nothing buffered. -/
theorem c10_witness :
    (runState sConn [Op.hangup, Op.initiate CallKind.audio (some 8)]).remoteDescriptionSet
      = true ∧
    handleMessage sConn (WireMsg.iceCandidate (some "bob") (some "alice") 41) =
      ⟨sConn, [Effect.engineAddCandidate 0 41], none⟩ :=
  ⟨(c10_rds_monotone "x" sConn Op.hangup
      [Op.hangup, Op.initiate CallKind.audio (some 8)] none 41 0).2.2.1 rfl,
   (c10_rds_monotone "x" sConn Op.hangup [] (some "bob") 41 0).2.2.2 rfl rfl⟩

end ChatApp

namespace ChatApp

/-- C4 counterexample: with alice's caller session active (`sActive`,
engine 0 live), an inbound offer from carol addressed to alice is not
ignored: it is stored as the PendingOffer and the incoming-call UI fires. -/
theorem c4_counterexample :
    sActive.peerConnection = some 0 ∧ sActive.pendingOffer = none ∧
    (step sActive (Op.recv (WireMsg.callOffer
        ⟨some "carol", some "alice", CallKind.video, some 5⟩))).state.pendingOffer =
      some ⟨some "carol", some "alice", CallKind.video, some 5⟩ ∧
    (step sActive (Op.recv (WireMsg.callOffer
        ⟨some "carol", some "alice", CallKind.video, some 5⟩))).effects =
      [Effect.uiShowIncomingCall (some "carol") CallKind.video] := by
  decide

/-- C4 amended: a `call_offer` addressed to the local participant is always
stored as the PendingOffer and the UI notified, whether or not a call
session is active; an offer addressed elsewhere is ignored with no state
change. -/
theorem c4_amended (s : State) (data other : OfferData)
    (h : data.to_user = some s.currentUsername)
    (h2 : other.to_user ≠ some s.currentUsername) :
    handleMessage s (WireMsg.callOffer data) =
      ⟨{ s with pendingOffer := some data, incomingCallHidden := false },
       [Effect.uiShowIncomingCall data.from_user data.call_type], none⟩ ∧
    handleMessage s (WireMsg.callOffer other) = ⟨s, [], none⟩ := by
  constructor
  · simp [handleMessage, showIncomingCall, h]
  · simp [handleMessage, h2]

/-- C4 witness: carol's offer to alice lands in `pendingOffer` on the active
state `sActive`; her offer to bob is dropped there. -/
theorem c4_witness :
    handleMessage sActive
        (WireMsg.callOffer ⟨some "carol", some "alice", CallKind.video, some 5⟩) =
      ⟨{ sActive with
           pendingOffer := some ⟨some "carol", some "alice", CallKind.video, some 5⟩,
           incomingCallHidden := false },
       [Effect.uiShowIncomingCall (some "carol") CallKind.video], none⟩ ∧
    handleMessage sActive
        (WireMsg.callOffer ⟨some "carol", some "bob", CallKind.video, some 5⟩) =
      ⟨sActive, [], none⟩ :=
  c4_amended sActive ⟨some "carol", some "alice", CallKind.video, some 5⟩
    ⟨some "carol", some "bob", CallKind.video, some 5⟩ rfl (by decide)

/-- C5 counterexample: a `call_answer {accepted:true}` with no active session
raises a TypeError instead of being ignored; and with a session active, an
answer from carol — not the expected peer bob — is still processed (it sets
`remoteDescriptionSet`). -/
theorem c5_counterexample :
    sJoined.peerConnection = none ∧
    (step sJoined (Op.recv (WireMsg.callAnswer (some "bob") (some "alice") true
        (some 9)))).err = some JsError.typeError ∧
    sActive.currentPeer = some "bob" ∧
    (step sActive (Op.recv (WireMsg.callAnswer (some "carol") (some "alice") true
        (some 9)))).state.remoteDescriptionSet = true := by
  decide

/-- C5 amended: every inbound `call_answer` is forwarded to the answer
handler with no session or sender check: with `accepted: true` and no
engine it raises a TypeError; with an engine it applies the remote
description and drains the queue whatever the sender; with
`accepted: false` it runs `endCall`. -/
theorem c5_amended (s : State) (f tu : Option String) (sdp : Option Nat) (e : Nat) :
    (s.peerConnection = none →
      handleMessage s (WireMsg.callAnswer f tu true sdp) =
        ⟨s, [], some JsError.typeError⟩) ∧
    (s.peerConnection = some e →
      handleMessage s (WireMsg.callAnswer f tu true sdp) =
        ⟨{ s with remoteDescriptionSet := true, pendingRemoteCandidates := [] },
         Effect.engineSetRemote e sdp ::
           s.pendingRemoteCandidates.map (fun c => Effect.engineAddCandidate e c),
         none⟩) ∧
    handleMessage s (WireMsg.callAnswer f tu false sdp) =
      ⟨(endCall s).1, (endCall s).2, none⟩ := by
  refine ⟨fun h => ?_, fun h => ?_, ?_⟩
  · simp [handleMessage, handleCallAnswer, h]
  · simp [handleMessage, handleCallAnswer, flushPending, h]
  · simp [handleMessage, handleCallAnswer]

/-- C5 witness: on the fresh roster state (no session) an accepting answer
from bob raises the TypeError; on `sPend` (engine 0, candidates 41, 42
buffered) the same message is processed and drains the queue. -/
theorem c5_witness :
    handleMessage sJoined (WireMsg.callAnswer (some "bob") (some "alice") true (some 9)) =
      ⟨sJoined, [], some JsError.typeError⟩ ∧
    handleMessage sPend (WireMsg.callAnswer (some "bob") (some "alice") true (some 9)) =
      ⟨{ sPend with remoteDescriptionSet := true, pendingRemoteCandidates := [] },
       Effect.engineSetRemote 0 (some 9) ::
         sPend.pendingRemoteCandidates.map (fun c => Effect.engineAddCandidate 0 c),
       none⟩ :=
  ⟨(c5_amended sJoined (some "bob") (some "alice") (some 9) 0).1 rfl,
   (c5_amended sPend (some "bob") (some "alice") (some 9) 0).2.1 rfl⟩

/-- C6 counterexample: when `getUserMedia` fails during `initiateCall`, the
rejection escapes but the state is not returned to Idle: `isCaller` is
still true, `currentPeer` is still set and the call overlay is showing. -/
theorem c6_counterexample :
    (step sJoined (Op.initiate CallKind.audio none)).err = some JsError.mediaAcquisition ∧
    (step sJoined (Op.initiate CallKind.audio none)).state.isCaller = true ∧
    (step sJoined (Op.initiate CallKind.audio none)).state.currentPeer = some "bob" ∧
    (step sJoined (Op.initiate CallKind.audio none)).state.callOverlayHidden = false := by
  decide

/-- C6 amended: when media acquisition fails during initiate or accept, the
error propagates as an unhandled rejection and no recovery runs: the
role/peer/UI fields written before the acquisition keep their new values
(caller: `isCaller := true`, peer selected; callee: `isCaller := false`,
peer set, offer consumed), and no reset to Idle occurs. -/
theorem c6_amended (s t : State) (kind : CallKind) (users : List String) (p : String)
    (offer : OfferData)
    (hu : s.onlineUsers = some users)
    (hp : users.find? (fun u => u ≠ s.currentUsername) = some p)
    (ht : t.pendingOffer = some offer) :
    initiateCall s kind none =
      ⟨{ s with currentPeer := some p, isCaller := true, callOverlayHidden := false },
       [], some JsError.mediaAcquisition⟩ ∧
    answerCall t true none =
      ⟨{ t with incomingCallHidden := true, pendingOffer := none,
                currentPeer := offer.from_user, isCaller := false,
                callOverlayHidden := false },
       [], some JsError.mediaAcquisition⟩ := by
  constructor
  · simp only [initiateCall, startLocalStream, hu, hp]
  · simp only [answerCall, startLocalStream, ht]
    simp

/-- C6 witness: the amended behavior at the concrete states: alice's failed
initiate from `sJoined`, and a failed accept of the pending glare offer. -/
theorem c6_witness :
    initiateCall sJoined CallKind.audio none =
      ⟨{ sJoined with currentPeer := some "bob", isCaller := true,
                      callOverlayHidden := false },
       [], some JsError.mediaAcquisition⟩ ∧
    answerCall sGlare true none =
      ⟨{ sGlare with incomingCallHidden := true, pendingOffer := none,
                     currentPeer := some "bob", isCaller := false,
                     callOverlayHidden := false },
       [], some JsError.mediaAcquisition⟩ :=
  c6_amended sJoined sGlare CallKind.audio ["alice", "bob"] "bob" glareOffer
    rfl (by decide) rfl

end ChatApp

namespace ChatApp

/-- C1 counterexample: with alice's caller session active (`sActive`: engine
0, stream 7), a second `initiateCall` is not rejected — it installs a fresh
engine and stream — and accepting the pending glare offer (`sGlare`) is not
rejected either: it replaces the engine and flips the role. -/
theorem c1_counterexample :
    sActive.peerConnection = some 0 ∧ sActive.localStream = some 7 ∧
    sActive.isCaller = true ∧
    (step sActive (Op.initiate CallKind.audio (some 8))).state.peerConnection = some 1 ∧
    (step sActive (Op.initiate CallKind.audio (some 8))).state.localStream = some 8 ∧
    (step sGlare (Op.answer true (some 9))).state.peerConnection = some 1 ∧
    (step sGlare (Op.answer true (some 9))).state.isCaller = false := by
  decide

/-- C1 amended: neither `initiateCall` nor accepting a pending offer checks
for an active session; whatever the current session state, each proceeds
unconditionally, installing a fresh negotiation engine and overwriting the
session fields — a second initiate/accept replaces the active session
rather than being rejected. -/
theorem c1_amended (s t : State) (kind : CallKind) (users : List String) (p : String)
    (m n : Nat) (offer : OfferData)
    (hu : s.onlineUsers = some users)
    (hp : users.find? (fun u => u ≠ s.currentUsername) = some p)
    (ht : t.pendingOffer = some offer) :
    ((initiateCall s kind (some m)).state.peerConnection = some s.nextEngineId ∧
     (initiateCall s kind (some m)).state.isCaller = true ∧
     (initiateCall s kind (some m)).state.currentPeer = some p ∧
     (initiateCall s kind (some m)).state.localStream = some m ∧
     (initiateCall s kind (some m)).err = none) ∧
    ((answerCall t true (some n)).state.peerConnection = some t.nextEngineId ∧
     (answerCall t true (some n)).state.isCaller = false ∧
     (answerCall t true (some n)).state.currentPeer = offer.from_user ∧
     (answerCall t true (some n)).state.localStream = some n ∧
     (answerCall t true (some n)).err = none) := by
  constructor
  · refine ⟨?_, ?_, ?_, ?_, ?_⟩ <;>
      simp only [initiateCall, startLocalStream, hu, hp] <;> simp
  · refine ⟨?_, ?_, ?_, ?_, ?_⟩ <;>
      simp only [answerCall, startLocalStream, flushPending, ht] <;> simp

/-- C1 witness: the amended behavior at the concrete active states: a second
initiate on `sActive` and an accept on `sGlare` both install engine 1. -/
theorem c1_witness :
    (initiateCall sActive CallKind.audio (some 8)).state.peerConnection =
      some sActive.nextEngineId ∧
    (answerCall sGlare true (some 9)).state.peerConnection =
      some sGlare.nextEngineId :=
  ⟨((c1_amended sActive sGlare CallKind.audio ["alice", "bob"] "bob" 8 9 glareOffer
      rfl (by decide) rfl).1).1,
   ((c1_amended sActive sGlare CallKind.audio ["alice", "bob"] "bob" 8 9 glareOffer
      rfl (by decide) rfl).2).1⟩

/-- Inbound addressed candidates, while a session is active and the remote
description is unset, append to the pending queue in arrival order and touch
nothing else. -/
theorem runState_enqueue (f : Option String) (cs : List Nat) (s : State) (e : Nat)
    (he : s.peerConnection = some e) (hr : s.remoteDescriptionSet = false) :
    runState s (enqueueOps f s.currentUsername cs) =
      { s with pendingRemoteCandidates := s.pendingRemoteCandidates ++ cs } := by
  induction cs generalizing s with
  | nil => simp [enqueueOps, runState]
  | cons c cs ih =>
    have hstep : step s (Op.recv (WireMsg.iceCandidate f (some s.currentUsername) c)) =
        ⟨{ s with pendingRemoteCandidates := s.pendingRemoteCandidates ++ [c] },
         [], none⟩ := by
      simp [step, handleMessage, he, hr]
    calc runState s (enqueueOps f s.currentUsername (c :: cs))
        = runState { s with pendingRemoteCandidates := s.pendingRemoteCandidates ++ [c] }
            (enqueueOps f s.currentUsername cs) := by
          simp [enqueueOps, runState, hstep]
      _ = { s with pendingRemoteCandidates := s.pendingRemoteCandidates ++ (c :: cs) } := by
          have h2 := ih { s with pendingRemoteCandidates :=
            s.pendingRemoteCandidates ++ [c] } he hr
          rw [h2]
          simp

/-- C2: candidates buffered while `remoteDescriptionSet` is false are handed
to the negotiation engine exactly once each, in arrival (enqueue) order, by
the single flush — in `handleCallAnswer` for the caller and inside
`answerCall` for the callee — and the pending queue is empty afterwards. -/
theorem c2_flush_order (s t : State) (f : Option String) (cs : List Nat) (e : Nat)
    (asdp : Option Nat) (m : Nat) (offer : OfferData)
    (he : s.peerConnection = some e) (hr : s.remoteDescriptionSet = false)
    (hq : s.pendingRemoteCandidates = [])
    (ht : t.pendingOffer = some offer) :
    ((handleMessage (runState s (enqueueOps f s.currentUsername cs))
        (WireMsg.callAnswer f (some s.currentUsername) true asdp)).effects =
       Effect.engineSetRemote e asdp ::
         cs.map (fun c => Effect.engineAddCandidate e c) ∧
     (handleMessage (runState s (enqueueOps f s.currentUsername cs))
        (WireMsg.callAnswer f (some s.currentUsername) true
          asdp)).state.pendingRemoteCandidates = []) ∧
    ((answerCall t true (some m)).state.pendingRemoteCandidates = [] ∧
     (answerCall t true (some m)).effects =
       [Effect.engineCreate t.nextEngineId, Effect.addTrack t.nextEngineId m,
        Effect.engineSetRemote t.nextEngineId offer.sdp] ++
         t.pendingRemoteCandidates.map
           (fun c => Effect.engineAddCandidate t.nextEngineId c) ++
         [Effect.engineSetLocal t.nextEngineId 1,
          Effect.wsSend (WireMsg.callAnswer (some t.currentUsername) offer.from_user
            true (some 1))]) := by
  have h1 := runState_enqueue f cs s e he hr
  constructor
  · rw [h1]
    constructor <;> simp [handleMessage, handleCallAnswer, flushPending, he, hq]
  · constructor <;>
      simp only [answerCall, startLocalStream, flushPending, ht] <;> simp

/-- C2 witness: bob's candidates 41 and 42, buffered on caller state
`sActive`, are applied to engine 0 in that order by the flush in the answer
handler. -/
theorem c2_witness :
    (handleMessage
        (runState sActive (enqueueOps (some "bob") sActive.currentUsername [41, 42]))
        (WireMsg.callAnswer (some "bob") (some sActive.currentUsername) true
          (some 9))).effects =
      Effect.engineSetRemote 0 (some 9) ::
        [41, 42].map (fun c => Effect.engineAddCandidate 0 c) :=
  ((c2_flush_order sActive sGlare (some "bob") [41, 42] 0 (some 9) 9 glareOffer
      rfl rfl rfl rfl).1).1

end ChatApp

namespace ChatApp

/-- C7 counterexample: in the reachable glare state `sGlare` alice is in the
Caller role (active caller session) with bob's offer pending; rejecting that
offer emits a `call_answer` while `isCaller` is still true, so a session in
Caller role does emit `call_answer`. -/
theorem c7_counterexample :
    sGlare.isCaller = true ∧
    (step sGlare (Op.answer false none)).state.isCaller = true ∧
    emitsAnswer (step sGlare (Op.answer false none)).effects false = true := by
  decide

/-- C7 amended: `call_offer` is emitted exactly by the caller path
(`startLocalStream` sends it iff media succeeded and `isCaller` is set, and
neither `answerCall` nor the router ever sends one); the router itself never
emits `call_answer`; `initiateCall` never emits `call_answer`; an accepting
`call_answer` is only sent with the app in Callee role (`isCaller = false`
in the sending state) — but the rejecting `call_answer` of
`answerCall(false)` is sent without consulting the role, so it can be
emitted in Caller role. -/
theorem c7_amended (s : State) (kind : CallKind) (media : Option Nat)
    (accepted : Bool) (msg : WireMsg) (offer : OfferData) :
    emitsOffer (startLocalStream s kind media).effects = (media.isSome && s.isCaller) ∧
    emitsOffer (answerCall s accepted media).effects = false ∧
    emitsOffer (handleMessage s msg).effects = false ∧
    emitsAnswer (handleMessage s msg).effects true = false ∧
    emitsAnswer (handleMessage s msg).effects false = false ∧
    emitsAnswer (initiateCall s kind media).effects true = false ∧
    emitsAnswer (initiateCall s kind media).effects false = false ∧
    (emitsAnswer (answerCall s accepted media).effects true = true →
      (answerCall s accepted media).state.isCaller = false) ∧
    (s.pendingOffer = some offer →
      emitsAnswer (answerCall s false media).effects false = true) := by
  refine ⟨?_, ?_, ?_, ?_, ?_, ?_, ?_, ?_, ?_⟩
  · rcases media with _ | m
    · simp [startLocalStream, emitsOffer]
    · rcases hic : s.isCaller <;> simp [startLocalStream, emitsOffer, hic]
  · rcases hpo : s.pendingOffer with _ | offer2
    · simp [answerCall, hpo, emitsOffer]
    · cases accepted
      · simp [answerCall, hpo, emitsOffer]
      · rcases media with _ | m
        · simp [answerCall, startLocalStream, hpo, emitsOffer]
        · simp [answerCall, startLocalStream, flushPending, hpo, emitsOffer]
  · cases msg with
    | chat u c => rfl
    | join o => rfl
    | leave o => rfl
    | callOffer d =>
      by_cases hd : d.to_user = some s.currentUsername <;>
        simp [handleMessage, showIncomingCall, hd, emitsOffer]
    | callAnswer f tu2 a sdp =>
      cases a
      · rcases hls : s.localStream with _ | ml <;>
          rcases hrs : s.remoteStream with _ | mr <;>
          rcases hpc : s.peerConnection with _ | e <;>
          simp [handleMessage, handleCallAnswer, endCall, hls, hrs, hpc, emitsOffer]
      · rcases hpc : s.peerConnection with _ | e <;>
          simp [handleMessage, handleCallAnswer, flushPending, hpc, emitsOffer]
    | iceCandidate f tu2 c =>
      by_cases htc : tu2 = some s.currentUsername <;>
        rcases hpc : s.peerConnection with _ | e <;>
        rcases hrd : s.remoteDescriptionSet <;>
        simp_all [handleMessage, emitsOffer]
  · cases msg with
    | chat u c => rfl
    | join o => rfl
    | leave o => rfl
    | callOffer d =>
      by_cases hd : d.to_user = some s.currentUsername <;>
        simp [handleMessage, showIncomingCall, hd, emitsAnswer]
    | callAnswer f tu2 a sdp =>
      cases a
      · rcases hls : s.localStream with _ | ml <;>
          rcases hrs : s.remoteStream with _ | mr <;>
          rcases hpc : s.peerConnection with _ | e <;>
          simp [handleMessage, handleCallAnswer, endCall, hls, hrs, hpc, emitsAnswer]
      · rcases hpc : s.peerConnection with _ | e <;>
          simp [handleMessage, handleCallAnswer, flushPending, hpc, emitsAnswer]
    | iceCandidate f tu2 c =>
      by_cases htc : tu2 = some s.currentUsername <;>
        rcases hpc : s.peerConnection with _ | e <;>
        rcases hrd : s.remoteDescriptionSet <;>
        simp_all [handleMessage, emitsAnswer]
  · cases msg with
    | chat u c => rfl
    | join o => rfl
    | leave o => rfl
    | callOffer d =>
      by_cases hd : d.to_user = some s.currentUsername <;>
        simp [handleMessage, showIncomingCall, hd, emitsAnswer]
    | callAnswer f tu2 a sdp =>
      cases a
      · rcases hls : s.localStream with _ | ml <;>
          rcases hrs : s.remoteStream with _ | mr <;>
          rcases hpc : s.peerConnection with _ | e <;>
          simp [handleMessage, handleCallAnswer, endCall, hls, hrs, hpc, emitsAnswer]
      · rcases hpc : s.peerConnection with _ | e <;>
          simp [handleMessage, handleCallAnswer, flushPending, hpc, emitsAnswer]
    | iceCandidate f tu2 c =>
      by_cases htc : tu2 = some s.currentUsername <;>
        rcases hpc : s.peerConnection with _ | e <;>
        rcases hrd : s.remoteDescriptionSet <;>
        simp_all [handleMessage, emitsAnswer]
  · rcases ho : s.onlineUsers with _ | users
    · simp [initiateCall, ho, emitsAnswer]
    · rcases hf : users.find? (fun u => u ≠ s.currentUsername) with _ | p <;>
        rcases media with _ | m <;>
        simp only [initiateCall, startLocalStream, ho, hf] <;>
        simp [emitsAnswer]
  · rcases ho : s.onlineUsers with _ | users
    · simp [initiateCall, ho, emitsAnswer]
    · rcases hf : users.find? (fun u => u ≠ s.currentUsername) with _ | p <;>
        rcases media with _ | m <;>
        simp only [initiateCall, startLocalStream, ho, hf] <;>
        simp [emitsAnswer]
  · rcases hpo : s.pendingOffer with _ | offer2
    · simp [answerCall, hpo, emitsAnswer]
    · cases accepted
      · simp [answerCall, hpo, emitsAnswer]
      · rcases media with _ | m
        · simp [answerCall, startLocalStream, hpo, emitsAnswer]
        · simp [answerCall, startLocalStream, flushPending, hpo, emitsAnswer]
  · intro hpo
    rcases media with _ | m <;> simp [answerCall, hpo, emitsAnswer]

/-- C7 witness: the amended role facts at the concrete glare state: the
accepting answer from `sGlare` is sent with the role already flipped to
Callee, and the rejecting answer is emitted there (while the role is
Caller, per the counterexample). -/
theorem c7_witness :
    (answerCall sGlare true (some 9)).state.isCaller = false ∧
    emitsAnswer (answerCall sGlare false none).effects false = true :=
  ⟨(c7_amended sGlare CallKind.audio (some 9) true (WireMsg.join [])
      glareOffer).2.2.2.2.2.2.2.1 (by decide),
   (c7_amended sGlare CallKind.audio none true (WireMsg.join [])
      glareOffer).2.2.2.2.2.2.2.2 rfl⟩

end ChatApp
